import Mathlib

/-!
Verification of the snapshot rotation engine (`scripts/snapshot_rotate.py`).

Python strings are modelled as lists of characters, Python `datetime`
values as a record of calendar fields, and the external Proxmox API as an
explicit record of response/failure oracles.  Side effects of a rotation
pass (API mutation calls, dry-run report lines, warning lines) are
collected into an event list; an uncaught Python exception is modelled by
an `Option Err` component that aborts the remaining fold.
-/

/-- Characters of a Python `str`, modelled as a list of `Char`. -/
abbrev Str := List Char

/-- Character-list view of a Lean string literal. -/
def str (s : String) : Str := s.toList

/-- Digit character for `n % 10` shape arguments (zero-padded `strftime` output). -/
def dChar (n : Nat) : Char := Char.ofNat (48 + n)

/-- Numeric value of a digit character, as read back by `strptime`. -/
def dVal (c : Char) : Nat := c.toNat - 48

theorem dVal_dChar (n : Nat) (h : n < 10) : dVal (dChar n) = n := by
  interval_cases n <;> rfl

theorem isDigit_dChar (n : Nat) (h : n < 10) : (dChar n).isDigit = true := by
  interval_cases n <;> rfl

theorem dChar_ne_dash (n : Nat) (h : n < 10) : dChar n ≠ '-' := by
  interval_cases n <;> decide

/-- Two-digit zero-padded rendering (`%m`, `%d`, `%H`, `%M`). -/
def pad2 (n : Nat) : Str := [dChar (n / 10 % 10), dChar (n % 10)]

/-- Four-digit zero-padded rendering (`%Y`, Python years are `1..9999`). -/
def pad4 (n : Nat) : Str :=
  [dChar (n / 1000 % 10), dChar (n / 100 % 10), dChar (n / 10 % 10), dChar (n % 10)]

/-- A naive `datetime.datetime` at minute resolution (the script never
formats or compares sub-minute fields). -/
structure DateTime where
  year : Nat
  month : Nat
  day : Nat
  hour : Nat
  minute : Nat
deriving DecidableEq, Repr

/-- Gregorian leap-year rule, as in Python's `calendar`/`datetime`. -/
def isLeap (y : Nat) : Bool :=
  y % 4 = 0 && (y % 100 ≠ 0 || y % 400 = 0)

/-- Days in a month of a given year. -/
def daysInMonth (y m : Nat) : Nat :=
  if m = 2 then (if isLeap y then 29 else 28)
  else if m = 4 ∨ m = 6 ∨ m = 9 ∨ m = 11 then 30
  else 31

/-- Days in the months of `y` strictly before month `m`. -/
def daysBeforeMonth (y m : Nat) : Nat :=
  ((List.range (m - 1)).map (fun i => daysInMonth y (i + 1))).sum

/-- Rata-die day number: `rataDie 1 1 1 = 1`, which is a Monday in the
proleptic Gregorian calendar used by Python's `datetime`. -/
def rataDie (y m d : Nat) : Nat :=
  365 * (y - 1) + (y - 1) / 4 - (y - 1) / 100 + (y - 1) / 400 + daysBeforeMonth y m + d

/-- Python `datetime.weekday()`: Monday is `0`. -/
def weekday (t : DateTime) : Nat :=
  (rataDie t.year t.month t.day + 6) % 7

/-- Minutes on the timeline; naive `datetime` comparison coincides with
comparison of this count for in-range field values. -/
def toMin (t : DateTime) : Int :=
  ((rataDie t.year t.month t.day : Int) * 24 + t.hour) * 60 + t.minute

/-- Field ranges accepted by the `datetime` constructor (and so by
`strptime`), at minute resolution. -/
def validYmdHm (y mo d h mi : Nat) : Prop :=
  1 ≤ y ∧ y ≤ 9999 ∧ 1 ≤ mo ∧ mo ≤ 12 ∧ 1 ≤ d ∧ d ≤ daysInMonth y mo ∧ h ≤ 23 ∧ mi ≤ 59

instance (y mo d h mi : Nat) : Decidable (validYmdHm y mo d h mi) := by
  unfold validYmdHm; infer_instance

/-- A `DateTime` whose fields are in `datetime`'s accepted ranges. -/
def DateTime.valid (t : DateTime) : Prop :=
  validYmdHm t.year t.month t.day t.hour t.minute

instance (t : DateTime) : Decidable t.valid := by
  unfold DateTime.valid; infer_instance

/-- Rendering `strftime "%Y%m%d"` on a datetime. -/
def fmtYmd (t : DateTime) : Str := pad4 t.year ++ pad2 t.month ++ pad2 t.day

/-- Rendering `strftime "%H%M"` on a datetime. -/
def fmtHm (t : DateTime) : Str := pad2 t.hour ++ pad2 t.minute

/-- Python `name.split("-")`. -/
def splitOnDash : Str → List Str
  | [] => [[]]
  | c :: rest =>
    if c = '-' then [] :: splitOnDash rest
    else
      match splitOnDash rest with
      | [] => [[c]]
      | s :: ss => (c :: s) :: ss

/-- Python `"-".join(parts)`. -/
def joinDash : List Str → Str
  | [] => []
  | [s] => s
  | s :: s2 :: ss => s ++ '-' :: joinDash (s2 :: ss)

theorem splitOnDash_ne_nil (s : Str) : splitOnDash s ≠ [] := by
  induction s with
  | nil => simp [splitOnDash]
  | cons c rest ih =>
    simp only [splitOnDash]
    split
    · simp
    · cases h : splitOnDash rest with
      | nil => exact absurd h ih
      | cons a as => simp [h]

theorem splitOnDash_append_dash (a b : Str) (ha : '-' ∉ a) :
    splitOnDash (a ++ '-' :: b) = a :: splitOnDash b := by
  induction a with
  | nil => simp [splitOnDash]
  | cons c a' ih =>
    have hc : c ≠ '-' := fun h => ha (h ▸ List.mem_cons_self c a')
    have ha' : '-' ∉ a' := fun h => ha (List.mem_cons_of_mem c h)
    simp only [List.cons_append, splitOnDash, if_neg hc, List.append_eq]
    rw [ih ha']

theorem splitOnDash_dashfree (a : Str) (ha : '-' ∉ a) : splitOnDash a = [a] := by
  induction a with
  | nil => rfl
  | cons c a' ih =>
    have hc : c ≠ '-' := fun h => ha (h ▸ List.mem_cons_self c a')
    have ha' : '-' ∉ a' := fun h => ha (List.mem_cons_of_mem c h)
    simp only [splitOnDash, if_neg hc, ih ha']

/-!
`datetime.strptime` compiles each directive to a regular expression
(`_strptime.py`): `%Y ↦ \d\d\d\d`, `%m ↦ 1[0-2]|0[1-9]|[1-9]`,
`%d ↦ 3[01]|[12]\d|0[1-9]|[1-9]`, `%H ↦ 2[0-3]|[0-1]\d|\d`,
`%M ↦ [0-5]\d|\d`, literals verbatim, and uses `re.match` (ordered
alternation with backtracking, anchored only at the start) followed by a
check that the match consumed the whole string.  Each matcher below
returns its candidate `(value, rest)` pairs in alternation order; the
first fully matching path is the regex result.
-/

/-- Candidates of `\d\d\d\d` (`%Y`). -/
def matchY : Str → List (Nat × Str)
  | c1 :: c2 :: c3 :: c4 :: rest =>
    if c1.isDigit ∧ c2.isDigit ∧ c3.isDigit ∧ c4.isDigit then
      [(((dVal c1 * 10 + dVal c2) * 10 + dVal c3) * 10 + dVal c4, rest)]
    else []
  | _ => []

/-- Candidates of `1[0-2]|0[1-9]|[1-9]` (`%m`), in alternation order. -/
def matchMonth : Str → List (Nat × Str)
  | c1 :: c2 :: rest =>
    (if c1 = '1' ∧ (c2 = '0' ∨ c2 = '1' ∨ c2 = '2') then [(10 + dVal c2, rest)] else []) ++
    (if c1 = '0' ∧ c2.isDigit ∧ c2 ≠ '0' then [(dVal c2, rest)] else []) ++
    (if c1.isDigit ∧ c1 ≠ '0' then [(dVal c1, c2 :: rest)] else [])
  | [c1] => if c1.isDigit ∧ c1 ≠ '0' then [(dVal c1, [])] else []
  | [] => []

/-- Candidates of `3[01]|[12]\d|0[1-9]|[1-9]` (`%d`), in alternation order. -/
def matchDay : Str → List (Nat × Str)
  | c1 :: c2 :: rest =>
    (if c1 = '3' ∧ (c2 = '0' ∨ c2 = '1') then [(30 + dVal c2, rest)] else []) ++
    (if (c1 = '1' ∨ c1 = '2') ∧ c2.isDigit then [(dVal c1 * 10 + dVal c2, rest)] else []) ++
    (if c1 = '0' ∧ c2.isDigit ∧ c2 ≠ '0' then [(dVal c2, rest)] else []) ++
    (if c1.isDigit ∧ c1 ≠ '0' then [(dVal c1, c2 :: rest)] else [])
  | [c1] => if c1.isDigit ∧ c1 ≠ '0' then [(dVal c1, [])] else []
  | [] => []

/-- Candidates of `2[0-3]|[0-1]\d|\d` (`%H`), in alternation order. -/
def matchHour : Str → List (Nat × Str)
  | c1 :: c2 :: rest =>
    (if c1 = '2' ∧ (c2 = '0' ∨ c2 = '1' ∨ c2 = '2' ∨ c2 = '3') then [(20 + dVal c2, rest)] else []) ++
    (if (c1 = '0' ∨ c1 = '1') ∧ c2.isDigit then [(dVal c1 * 10 + dVal c2, rest)] else []) ++
    (if c1.isDigit then [(dVal c1, c2 :: rest)] else [])
  | [c1] => if c1.isDigit then [(dVal c1, [])] else []
  | [] => []

/-- Candidates of `[0-5]\d|\d` (`%M`), in alternation order. -/
def matchMinute : Str → List (Nat × Str)
  | c1 :: c2 :: rest =>
    (if (c1 = '0' ∨ c1 = '1' ∨ c1 = '2' ∨ c1 = '3' ∨ c1 = '4' ∨ c1 = '5') ∧ c2.isDigit then
      [(dVal c1 * 10 + dVal c2, rest)] else []) ++
    (if c1.isDigit then [(dVal c1, c2 :: rest)] else [])
  | [c1] => if c1.isDigit then [(dVal c1, [])] else []
  | [] => []

/-- Candidates of the literal `-` in a format string. -/
def matchDash : Str → List (Nat × Str)
  | c :: rest => if c = '-' then [(0, rest)] else []
  | [] => []

/-- First (ordered) match of the regex for `"%Y%m%d"`, with unconsumed rest. -/
def firstMatchYmd (s : Str) : Option (Nat × Nat × Nat × Str) :=
  ((matchY s).flatMap fun p1 =>
    (matchMonth p1.2).flatMap fun p2 =>
      (matchDay p2.2).map fun p3 => (p1.1, p2.1, p3.1, p3.2)).head?

/-- First (ordered) match of the regex for `"%Y%m%d-%H%M"`, with unconsumed rest. -/
def firstMatchYmdHm (s : Str) : Option (Nat × Nat × Nat × Nat × Nat × Str) :=
  ((matchY s).flatMap fun p1 =>
    (matchMonth p1.2).flatMap fun p2 =>
      (matchDay p2.2).flatMap fun p3 =>
        (matchDash p3.2).flatMap fun p4 =>
          (matchHour p4.2).flatMap fun p5 =>
            (matchMinute p5.2).map fun p6 =>
              (p1.1, p2.1, p3.1, p5.1, p6.1, p6.2)).head?

/-- Model of `datetime.strptime(s, "%Y%m%d")` as an optional value: `none` when the
regex does not match, does not consume the whole string, or the fields are
rejected by the `datetime` constructor. -/
def strptimeYmd (s : Str) : Option DateTime :=
  match firstMatchYmd s with
  | some (y, mo, d, rest) =>
    if rest = [] ∧ validYmdHm y mo d 0 0 then some ⟨y, mo, d, 0, 0⟩ else none
  | none => none

/-- Model of `datetime.strptime(s, "%Y%m%d-%H%M")` as an optional value. -/
def strptimeYmdHm (s : Str) : Option DateTime :=
  match firstMatchYmdHm s with
  | some (y, mo, d, h, mi, rest) =>
    if rest = [] ∧ validYmdHm y mo d h mi then some ⟨y, mo, d, h, mi⟩ else none
  | none => none

/-- Function `parse_snapshot_timestamp` from `scripts/snapshot_rotate.py`: the whole
body sits in `try/except Exception: return None`, so every failure path is
`none`. -/
def parse_snapshot_timestamp (name : Str) : Option DateTime :=
  if ¬ (str "auto-").isPrefixOf name then none
  else
    let parts := splitOnDash name
    if parts.length < 3 then none
    else
      let cadence := parts.getD 1 []
      let stamp := joinDash (parts.drop 2)
      if cadence = str "hourly" then strptimeYmdHm stamp
      else strptimeYmd stamp

/-- Function `tag_snapshot_name`: the current instant is injected as `now` (the
script reads `datetime.utcnow()` directly); the `raise ValueError` branch
for an unknown cadence is modelled as `none`. -/
def tag_snapshot_name (cadence : Str) (now : DateTime) : Option Str :=
  if cadence = str "hourly" then some (str "auto-hourly-" ++ fmtYmd now ++ '-' :: fmtHm now)
  else if cadence = str "daily" then some (str "auto-daily-" ++ fmtYmd now)
  else if cadence = str "weekly" then some (str "auto-weekly-" ++ fmtYmd now)
  else if cadence = str "monthly" then some (str "auto-monthly-" ++ fmtYmd now)
  else none

theorem matchY_pad4 (y : Nat) (r : Str) (hy : y ≤ 9999) : matchY (pad4 y ++ r) = [(y, r)] := by
  have h1 : y / 1000 % 10 < 10 := Nat.mod_lt _ (by norm_num)
  have h2 : y / 100 % 10 < 10 := Nat.mod_lt _ (by norm_num)
  have h3 : y / 10 % 10 < 10 := Nat.mod_lt _ (by norm_num)
  have h4 : y % 10 < 10 := Nat.mod_lt _ (by norm_num)
  simp only [pad4, List.cons_append, List.nil_append, matchY,
    isDigit_dChar _ h1, isDigit_dChar _ h2, isDigit_dChar _ h3, isDigit_dChar _ h4,
    dVal_dChar _ h1, dVal_dChar _ h2, dVal_dChar _ h3, dVal_dChar _ h4]
  rw [if_pos (by simp)]
  have : ((y / 1000 % 10 * 10 + y / 100 % 10) * 10 + y / 10 % 10) * 10 + y % 10 = y := by
    omega
  rw [this]

theorem matchMonth_pad2 (mo : Nat) (r : Str) (h1 : 1 ≤ mo) (h2 : mo ≤ 12) :
    ∃ tl, matchMonth (pad2 mo ++ r) = (mo, r) :: tl := by
  interval_cases mo <;> exact ⟨_, rfl⟩

theorem matchDay_pad2 (d : Nat) (r : Str) (h1 : 1 ≤ d) (h2 : d ≤ 31) :
    ∃ tl, matchDay (pad2 d ++ r) = (d, r) :: tl := by
  interval_cases d <;> exact ⟨_, rfl⟩

theorem matchHour_pad2 (h : Nat) (r : Str) (hh : h ≤ 23) :
    ∃ tl, matchHour (pad2 h ++ r) = (h, r) :: tl := by
  interval_cases h <;> exact ⟨_, rfl⟩

theorem matchMinute_pad2 (mi : Nat) (r : Str) (hm : mi ≤ 59) :
    ∃ tl, matchMinute (pad2 mi ++ r) = (mi, r) :: tl := by
  interval_cases mi <;> exact ⟨_, rfl⟩

theorem firstMatchYmd_fmt (t : DateTime) (hv : t.valid) :
    firstMatchYmd (fmtYmd t) = some (t.year, t.month, t.day, []) := by
  obtain ⟨hy1, hy2, hm1, hm2, hd1, hd2, _, _⟩ := hv
  obtain ⟨t1, hmo⟩ := matchMonth_pad2 t.month (pad2 t.day) hm1 hm2
  obtain ⟨t2, hd⟩ := matchDay_pad2 t.day [] hd1 (le_trans hd2 (by
    unfold daysInMonth
    split
    · split <;> norm_num
    · split <;> norm_num))
  rw [List.append_nil] at hd
  have hfmt : fmtYmd t = pad4 t.year ++ (pad2 t.month ++ pad2 t.day) := by
    simp [fmtYmd, List.append_assoc]
  rw [firstMatchYmd, hfmt, matchY_pad4 _ _ hy2]
  simp [hmo, hd]

theorem firstMatchYmdHm_fmt (t : DateTime) (hv : t.valid) :
    firstMatchYmdHm (fmtYmd t ++ '-' :: fmtHm t) =
      some (t.year, t.month, t.day, t.hour, t.minute, []) := by
  obtain ⟨hy1, hy2, hm1, hm2, hd1, hd2, hh, hmi⟩ := hv
  obtain ⟨t1, hmo⟩ := matchMonth_pad2 t.month
    (pad2 t.day ++ '-' :: (pad2 t.hour ++ pad2 t.minute)) hm1 hm2
  obtain ⟨t2, hd⟩ := matchDay_pad2 t.day ('-' :: (pad2 t.hour ++ pad2 t.minute)) hd1
    (le_trans hd2 (by
      unfold daysInMonth
      split
      · split <;> norm_num
      · split <;> norm_num))
  obtain ⟨t3, hho⟩ := matchHour_pad2 t.hour (pad2 t.minute) hh
  obtain ⟨t4, hmin⟩ := matchMinute_pad2 t.minute [] hmi
  rw [List.append_nil] at hmin
  have hfmt : fmtYmd t ++ '-' :: fmtHm t =
      pad4 t.year ++ (pad2 t.month ++ (pad2 t.day ++ '-' :: (pad2 t.hour ++ pad2 t.minute))) := by
    simp [fmtYmd, fmtHm, List.append_assoc]
  have hdash : matchDash ('-' :: (pad2 t.hour ++ pad2 t.minute)) =
      [(0, pad2 t.hour ++ pad2 t.minute)] := by simp [matchDash]
  rw [firstMatchYmdHm, hfmt, matchY_pad4 _ _ hy2]
  simp [hmo, hd, hdash, hho, hmin]

theorem strptimeYmd_fmt (t : DateTime) (hv : t.valid) (h0 : t.hour = 0) (m0 : t.minute = 0) :
    strptimeYmd (fmtYmd t) = some t := by
  have hv' : validYmdHm t.year t.month t.day 0 0 := by
    obtain ⟨a, b, c, d, e, f, _, _⟩ := hv
    exact ⟨a, b, c, d, e, f, by omega, by omega⟩
  rw [strptimeYmd, firstMatchYmd_fmt t hv]
  obtain ⟨y, mo, d, h, mi⟩ := t
  simp only at h0 m0
  subst h0 m0
  simp_all

theorem strptimeYmdHm_fmt (t : DateTime) (hv : t.valid) :
    strptimeYmdHm (fmtYmd t ++ '-' :: fmtHm t) = some t := by
  rw [strptimeYmdHm, firstMatchYmdHm_fmt t hv]
  obtain ⟨y, mo, d, h, mi⟩ := t
  simp_all [DateTime.valid]

/-- No formatted digit block contains a dash. -/
theorem dash_not_mem_pad2 (n : Nat) : '-' ∉ pad2 n := by
  intro h
  rcases List.mem_pair.mp h with h' | h' <;>
    exact dChar_ne_dash _ (Nat.mod_lt _ (by norm_num)) h'.symm

theorem dash_not_mem_pad4 (n : Nat) : '-' ∉ pad4 n := by
  intro h
  simp only [pad4, List.mem_cons, List.not_mem_nil, or_false] at h
  rcases h with h' | h' | h' | h' <;>
    exact dChar_ne_dash _ (Nat.mod_lt _ (by norm_num)) h'.symm

theorem dash_not_mem_fmtYmd (t : DateTime) : '-' ∉ fmtYmd t := by
  intro h
  rcases List.mem_append.mp h with h' | h'
  · rcases List.mem_append.mp h' with h'' | h''
    · exact dash_not_mem_pad4 _ h''
    · exact dash_not_mem_pad2 _ h''
  · exact dash_not_mem_pad2 _ h'

theorem dash_not_mem_fmtHm (t : DateTime) : '-' ∉ fmtHm t := by
  intro h
  rcases List.mem_append.mp h with h' | h' <;> exact dash_not_mem_pad2 _ h'

/-- Round trip for the hourly name shape `auto-hourly-%Y%m%d-%H%M`. -/
theorem parse_fmt_hourly (t : DateTime) (hv : t.valid) :
    parse_snapshot_timestamp (str "auto-hourly-" ++ fmtYmd t ++ '-' :: fmtHm t) = some t := by
  have hname : str "auto-hourly-" ++ fmtYmd t ++ '-' :: fmtHm t
      = str "auto" ++ '-' :: (str "hourly" ++ '-' :: (fmtYmd t ++ '-' :: fmtHm t)) := rfl
  have hpre : (str "auto-").isPrefixOf (str "auto-hourly-" ++ fmtYmd t ++ '-' :: fmtHm t) = true := by
    have : str "auto-hourly-" ++ fmtYmd t ++ '-' :: fmtHm t
        = str "auto-" ++ (str "hourly-" ++ (fmtYmd t ++ '-' :: fmtHm t)) := rfl
    rw [this]
    simp [str, List.isPrefixOf]
  have hsplit : splitOnDash (str "auto-hourly-" ++ fmtYmd t ++ '-' :: fmtHm t)
      = [str "auto", str "hourly", fmtYmd t, fmtHm t] := by
    rw [hname, splitOnDash_append_dash _ _ (by decide),
        splitOnDash_append_dash _ _ (by decide),
        splitOnDash_append_dash _ _ (dash_not_mem_fmtYmd t),
        splitOnDash_dashfree _ (dash_not_mem_fmtHm t)]
  simp only [parse_snapshot_timestamp, hpre, hsplit]
  simp only [List.length_cons, List.length_nil, List.getD, List.drop, joinDash]
  norm_num
  exact strptimeYmdHm_fmt t hv

/-- Round trip for the day-resolution shape `auto-<cad>-%Y%m%d`, for ANY
dash-free second segment other than `hourly` — `parse_snapshot_timestamp`
does not restrict the cadence segment to the four known tags. -/
theorem parse_fmt_day (cad : Str) (t : DateTime) (hv : t.valid) (hdf : '-' ∉ cad)
    (hne : cad ≠ str "hourly") (h0 : t.hour = 0) (m0 : t.minute = 0) :
    parse_snapshot_timestamp (str "auto-" ++ (cad ++ '-' :: fmtYmd t)) = some t := by
  have hname : str "auto-" ++ (cad ++ '-' :: fmtYmd t)
      = str "auto" ++ '-' :: (cad ++ '-' :: fmtYmd t) := rfl
  have hpre : (str "auto-").isPrefixOf (str "auto-" ++ (cad ++ '-' :: fmtYmd t)) = true := by
    simp [str, List.isPrefixOf]
  have hsplit : splitOnDash (str "auto-" ++ (cad ++ '-' :: fmtYmd t))
      = [str "auto", cad, fmtYmd t] := by
    rw [hname, splitOnDash_append_dash _ _ (by decide),
        splitOnDash_append_dash _ _ hdf,
        splitOnDash_dashfree _ (dash_not_mem_fmtYmd t)]
  simp only [parse_snapshot_timestamp, hpre, hsplit]
  simp only [List.length_cons, List.length_nil, List.getD, List.drop, joinDash]
  norm_num
  rw [if_neg hne]
  exact strptimeYmd_fmt t hv h0 m0

/-- Function `should_create(now)`: the list of due cadences, built in source order. -/
def should_create (now : DateTime) : List Str :=
  [str "hourly"]
    ++ (if now.minute = 0 then [str "daily"] else [])
    ++ (if weekday now = 0 ∧ now.hour = 0 ∧ now.minute = 0 then [str "weekly"] else [])
    ++ (if now.day = 1 ∧ now.hour = 0 ∧ now.minute = 0 then [str "monthly"] else [])

/-- The per-cadence retention cutoffs; `now - timedelta(...)` is carried as
a minute count on the timeline (naive `datetime` comparison agrees with
minute-count comparison). -/
structure Cutoffs where
  hourly : Int
  daily : Int
  weekly : Int
  monthly : Int
deriving DecidableEq, Repr

/-- Function `retention_cutoffs(now)`: `timedelta(days=3)`, `timedelta(days=14)`,
`timedelta(weeks=8)` and `timedelta(days=730)` below `now`, in minutes. -/
def retention_cutoffs (now : DateTime) : Cutoffs :=
  { hourly := toMin now - 3 * 1440
    daily := toMin now - 14 * 1440
    weekly := toMin now - 8 * 7 * 1440
    monthly := toMin now - 730 * 1440 }

/-- One snapshot record as returned by the API; `name` stands for
`snap.get("name", "")` (a snapshot without a name key yields `[]`). -/
structure Snap where
  name : Str
deriving DecidableEq, Repr

/-- The `grouped` dict of `filter_snapshots`, whose four keys are always
present; insertion order inside each bucket follows the input order. -/
structure Grouped where
  hourly : List Snap
  daily : List Snap
  weekly : List Snap
  monthly : List Snap
deriving DecidableEq, Repr

/-- One iteration of the loop body of `filter_snapshots` (appending at the
front because the recursion processes the head first). -/
def addSnap (s : Snap) (g : Grouped) : Grouped :=
  if ¬ (str "auto-").isPrefixOf s.name then g
  else
    let parts := splitOnDash s.name
    if parts.length < 3 then g
    else
      let cadence := parts.getD 1 []
      if cadence = str "hourly" then { g with hourly := s :: g.hourly }
      else if cadence = str "daily" then { g with daily := s :: g.daily }
      else if cadence = str "weekly" then { g with weekly := s :: g.weekly }
      else if cadence = str "monthly" then { g with monthly := s :: g.monthly }
      else g

/-- Function `filter_snapshots`: bucket snapshots by the second dash-segment of
their name; names without the marker, with fewer than three segments, or
with an unknown tag are dropped. -/
def filter_snapshots : List Snap → Grouped
  | [] => ⟨[], [], [], []⟩
  | s :: rest => addSnap s (filter_snapshots rest)

/-- One singleshot create or delete request against the API. -/
inductive EAction
  | create (vmid name : Str)
  | delete (vmid name : Str)
deriving DecidableEq, Repr

/-- Observable effects of a pass: an issued external mutation call, a
dry-run report line, or the `[warn] skipping` line for a workload whose
snapshot listing failed. -/
inductive Event
  | api (a : EAction)
  | plan (a : EAction)
  | warnSkip (vmid : Str)
deriving DecidableEq, Repr

/-- An uncaught Python exception escaping the fleet loop. -/
inductive Err
  | valueError (cadence : Str)
  | createErr (vmid name : Str)
  | deleteErr (vmid name : Str)
deriving DecidableEq, Repr

/-- Sequencing of effectful steps: an uncaught exception in the first step
aborts the second, keeping the effects already performed. -/
def andThen (x : List Event × Option Err) (k : Unit → List Event × Option Err) :
    List Event × Option Err :=
  match x with
  | (es, some e) => (es, some e)
  | (es, none) =>
    match k () with
    | (es2, e2) => (es ++ es2, e2)

/-- The external API as response/failure oracles; `snapshotsOf` is keyed by
node and vmid, the failure oracles of mutation calls by vmid and name. -/
structure Api where
  snapshotsOf : Str → Str → List Snap
  listFails : Str → Str → Bool
  createFails : Str → Str → Bool
  deleteFails : Str → Str → Bool

/-- Function `prune_snapshots`: walk the bucket; unparseable names are skipped
(`if not ts: continue`; a `datetime` is always truthy, `None` falsy);
strictly-older snapshots are deleted (or reported in dry-run).  A failing
delete call is NOT caught anywhere, so it aborts the walk. -/
def prune_snapshots (deleteFails : Str → Bool) (vmid : Str) (snaps : List Snap)
    (cutoff : Int) (dryRun : Bool) : List Event × Option Err :=
  match snaps with
  | [] => ([], none)
  | snap :: rest =>
    match parse_snapshot_timestamp snap.name with
    | none => prune_snapshots deleteFails vmid rest cutoff dryRun
    | some ts =>
      if toMin ts < cutoff then
        if dryRun then
          andThen ([Event.plan (EAction.delete vmid snap.name)], none)
            (fun _ => prune_snapshots deleteFails vmid rest cutoff dryRun)
        else if deleteFails snap.name then ([], some (Err.deleteErr vmid snap.name))
        else
          andThen ([Event.api (EAction.delete vmid snap.name)], none)
            (fun _ => prune_snapshots deleteFails vmid rest cutoff dryRun)
      else prune_snapshots deleteFails vmid rest cutoff dryRun

/-- Function `create_snapshot`: the name is computed (and a `ValueError` for an
unknown cadence raised) before the dry-run check; a failing create call is
not caught either. -/
def create_snapshot (createFails : Str → Bool) (vmid cadence : Str) (now : DateTime)
    (dryRun : Bool) : List Event × Option Err :=
  match tag_snapshot_name cadence now with
  | none => ([], some (Err.valueError cadence))
  | some name =>
    if dryRun then ([Event.plan (EAction.create vmid name)], none)
    else if createFails name then ([], some (Err.createErr vmid name))
    else ([Event.api (EAction.create vmid name)], none)

/-- The creation loop `for cadence in cadences_to_create`. -/
def createAll (createFails : Str → Bool) (vmid : Str) (cadences : List Str)
    (now : DateTime) (dryRun : Bool) : List Event × Option Err :=
  match cadences with
  | [] => ([], none)
  | c :: rest =>
    andThen (create_snapshot createFails vmid c now dryRun)
      (fun _ => createAll createFails vmid rest now dryRun)

/-- The pruning loop `for cadence, snaps in grouped.items()`, in the dict's
insertion order hourly, daily, weekly, monthly. -/
def pruneAll (deleteFails : Str → Bool) (vmid : Str) (g : Grouped) (cuts : Cutoffs)
    (dryRun : Bool) : List Event × Option Err :=
  andThen (prune_snapshots deleteFails vmid g.hourly cuts.hourly dryRun) fun _ =>
    andThen (prune_snapshots deleteFails vmid g.daily cuts.daily dryRun) fun _ =>
      andThen (prune_snapshots deleteFails vmid g.weekly cuts.weekly dryRun) fun _ =>
        prune_snapshots deleteFails vmid g.monthly cuts.monthly dryRun

/-- One entry of the `cluster.resources` inventory: `vmid` (already
stringified), the optional `node` value, and the truthiness of the
`template` flag. -/
structure VM where
  vmid : Str
  node : Option Str
  template : Bool

/-- The per-workload body of the fleet loop in `main`: templates and
entries with a falsy node are skipped silently; a snapshot-listing failure
is caught (`[warn] skipping ...`) and the workload skipped; then creation
precedes pruning and neither is guarded by a handler. -/
def processVM (api : Api) (now : DateTime) (cuts : Cutoffs) (cadences : List Str)
    (dryRun : Bool) (vm : VM) : List Event × Option Err :=
  if vm.template then ([], none)
  else
    match vm.node with
    | none => ([], none)
    | some node =>
      if node = [] then ([], none)
      else if api.listFails node vm.vmid then ([Event.warnSkip vm.vmid], none)
      else
        let grouped := filter_snapshots (api.snapshotsOf node vm.vmid)
        andThen (createAll (api.createFails vm.vmid) vm.vmid cadences now dryRun)
          (fun _ => pruneAll (api.deleteFails vm.vmid) vm.vmid grouped cuts dryRun)

/-- The fleet loop over the inventory. -/
def runVMs (api : Api) (now : DateTime) (cuts : Cutoffs) (cadences : List Str)
    (dryRun : Bool) : List VM → List Event × Option Err
  | [] => ([], none)
  | vm :: rest =>
    andThen (processVM api now cuts cadences dryRun vm)
      (fun _ => runVMs api now cuts cadences dryRun rest)

/-- A full pass of `main` after configuration and inventory listing:
`now` is read once, due cadences and cutoffs are computed once, then every
inventory entry is processed in order. -/
def run_pass (api : Api) (vms : List VM) (now : DateTime) (dryRun : Bool) :
    List Event × Option Err :=
  runVMs api now (retention_cutoffs now) (should_create now) dryRun vms

/-- The snapshots of a bucket whose name decodes to an instant strictly
before the cutoff.  Modelled from the spec's pruning-correctness clause:
given decoded instants and a cutoff `c`, pruning selects exactly the
instants `< c`. -/
def spec_prune_selected (snaps : List Snap) (cutoff : Int) : List Snap :=
  snaps.filter fun s =>
    match parse_snapshot_timestamp s.name with
    | some ts => decide (toMin ts < cutoff)
    | none => false

/-- Projection keeping dry-run report actions. -/
def planOf : Event → Option EAction
  | Event.plan a => some a
  | _ => none

/-- Projection keeping issued external mutation calls. -/
def apiOf : Event → Option EAction
  | Event.api a => some a
  | _ => none

/-- The four cadence tags known to the engine. -/
def knownCadences : List Str :=
  [str "hourly", str "daily", str "weekly", str "monthly"]

theorem mem_should_create (now : DateTime) (c : Str) (h : c ∈ should_create now) :
    c ∈ knownCadences := by
  unfold should_create at h
  by_cases h1 : now.minute = 0 <;>
    by_cases h2 : weekday now = 0 ∧ now.hour = 0 ∧ now.minute = 0 <;>
      by_cases h3 : now.day = 1 ∧ now.hour = 0 ∧ now.minute = 0 <;>
        simp_all [knownCadences] <;> tauto

theorem tag_isSome_of_known (now : DateTime) (c : Str) (h : c ∈ knownCadences) :
    (tag_snapshot_name c now).isSome = true := by
  simp only [knownCadences, List.mem_cons, List.not_mem_nil, or_false] at h
  rcases h with h | h | h | h <;> subst h <;> simp [tag_snapshot_name, str]

/-- Creation actions a pass intends for one workload. -/
def plannedCreates (vmid : Str) (cadences : List Str) (now : DateTime) : List EAction :=
  cadences.filterMap fun c =>
    (tag_snapshot_name c now).map fun nm => EAction.create vmid nm

/-- Deletion actions a pass intends for one workload, bucket by bucket. -/
def plannedDeletes (vmid : Str) (g : Grouped) (cuts : Cutoffs) : List EAction :=
  ((spec_prune_selected g.hourly cuts.hourly).map fun s => EAction.delete vmid s.name) ++
  ((spec_prune_selected g.daily cuts.daily).map fun s => EAction.delete vmid s.name) ++
  ((spec_prune_selected g.weekly cuts.weekly).map fun s => EAction.delete vmid s.name) ++
  ((spec_prune_selected g.monthly cuts.monthly).map fun s => EAction.delete vmid s.name)

/-- Actions a pass intends for one inventory entry. -/
def vmActs (api : Api) (now : DateTime) (cuts : Cutoffs) (cadences : List Str)
    (vm : VM) : List EAction :=
  if vm.template then []
  else
    match vm.node with
    | none => []
    | some node =>
      if node = [] then []
      else if api.listFails node vm.vmid then []
      else
        plannedCreates vm.vmid cadences now ++
          plannedDeletes vm.vmid (filter_snapshots (api.snapshotsOf node vm.vmid)) cuts

/-- Actions a pass intends over the whole inventory. -/
def passActs (api : Api) (now : DateTime) (cuts : Cutoffs) (cadences : List Str) :
    List VM → List EAction
  | [] => []
  | vm :: rest =>
    vmActs api now cuts cadences vm ++ passActs api now cuts cadences rest

theorem prune_dry (df : Str → Bool) (vmid : Str) (snaps : List Snap) (cutoff : Int) :
    prune_snapshots df vmid snaps cutoff true =
      ((spec_prune_selected snaps cutoff).map fun s => Event.plan (EAction.delete vmid s.name),
        none) := by
  induction snaps with
  | nil => rfl
  | cons snap rest ih =>
    simp only [prune_snapshots, spec_prune_selected, List.filter_cons]
    cases hp : parse_snapshot_timestamp snap.name with
    | none => simpa [spec_prune_selected] using ih
    | some ts =>
      by_cases hlt : toMin ts < cutoff
      · simp [hlt, andThen, ih, spec_prune_selected]
      · simp [hlt, ih, spec_prune_selected]

theorem prune_live (df : Str → Bool) (hdf : ∀ n, df n = false) (vmid : Str)
    (snaps : List Snap) (cutoff : Int) :
    prune_snapshots df vmid snaps cutoff false =
      ((spec_prune_selected snaps cutoff).map fun s => Event.api (EAction.delete vmid s.name),
        none) := by
  induction snaps with
  | nil => rfl
  | cons snap rest ih =>
    simp only [prune_snapshots, spec_prune_selected, List.filter_cons]
    cases hp : parse_snapshot_timestamp snap.name with
    | none => simpa [spec_prune_selected] using ih
    | some ts =>
      by_cases hlt : toMin ts < cutoff
      · simp [hlt, hdf, andThen, ih, spec_prune_selected]
      · simp [hlt, ih, spec_prune_selected]

theorem createAll_dry (cf : Str → Bool) (vmid : Str) (cadences : List Str) (now : DateTime)
    (hs : ∀ c ∈ cadences, (tag_snapshot_name c now).isSome = true) :
    createAll cf vmid cadences now true =
      ((plannedCreates vmid cadences now).map Event.plan, none) := by
  induction cadences with
  | nil => rfl
  | cons c rest ih =>
    obtain ⟨nm, hnm⟩ := Option.isSome_iff_exists.mp (hs c (List.mem_cons_self c rest))
    have ih' := ih fun c' hc' => hs c' (List.mem_cons_of_mem c hc')
    simp [createAll, create_snapshot, hnm, andThen, ih', plannedCreates]

theorem createAll_live (cf : Str → Bool) (hcf : ∀ n, cf n = false) (vmid : Str)
    (cadences : List Str) (now : DateTime)
    (hs : ∀ c ∈ cadences, (tag_snapshot_name c now).isSome = true) :
    createAll cf vmid cadences now false =
      ((plannedCreates vmid cadences now).map Event.api, none) := by
  induction cadences with
  | nil => rfl
  | cons c rest ih =>
    obtain ⟨nm, hnm⟩ := Option.isSome_iff_exists.mp (hs c (List.mem_cons_self c rest))
    have ih' := ih fun c' hc' => hs c' (List.mem_cons_of_mem c hc')
    simp [createAll, create_snapshot, hnm, hcf, andThen, ih', plannedCreates]

theorem pruneAll_dry (df : Str → Bool) (vmid : Str) (g : Grouped) (cuts : Cutoffs) :
    pruneAll df vmid g cuts true =
      ((plannedDeletes vmid g cuts).map Event.plan, none) := by
  simp [pruneAll, prune_dry, andThen, plannedDeletes, Function.comp_def]

theorem pruneAll_live (df : Str → Bool) (hdf : ∀ n, df n = false) (vmid : Str)
    (g : Grouped) (cuts : Cutoffs) :
    pruneAll df vmid g cuts false =
      ((plannedDeletes vmid g cuts).map Event.api, none) := by
  simp [pruneAll, prune_live df hdf, andThen, plannedDeletes, Function.comp_def]

theorem andThen_ok (es : List Event) (k : Unit → List Event × Option Err) :
    andThen (es, none) k = (es ++ (k ()).1, (k ()).2) := by
  rcases h : k () with ⟨es2, e2⟩
  simp [andThen, h]

theorem andThen_err (es : List Event) (e : Err) (k : Unit → List Event × Option Err) :
    andThen (es, some e) k = (es, some e) := rfl

theorem filterMap_planOf_plans (l : List EAction) :
    (l.map Event.plan).filterMap planOf = l := by
  induction l <;> simp_all [planOf]

theorem filterMap_apiOf_apis (l : List EAction) :
    (l.map Event.api).filterMap apiOf = l := by
  induction l <;> simp_all [apiOf]

theorem filterMap_planOf_comp (l : List EAction) :
    List.filterMap (planOf ∘ Event.plan) l = l := by
  induction l <;> simp_all [planOf]

theorem filterMap_apiOf_comp (l : List EAction) :
    List.filterMap (apiOf ∘ Event.api) l = l := by
  induction l <;> simp_all [apiOf]

theorem api_not_mem_plans (l : List EAction) (a : EAction) :
    Event.api a ∉ l.map Event.plan := by
  induction l <;> simp_all

theorem processVM_dry (api : Api) (now : DateTime) (cuts : Cutoffs) (cadences : List Str)
    (vm : VM) (hs : ∀ c ∈ cadences, (tag_snapshot_name c now).isSome = true) :
    (processVM api now cuts cadences true vm).2 = none ∧
      (processVM api now cuts cadences true vm).1.filterMap planOf =
        vmActs api now cuts cadences vm ∧
      ∀ a, Event.api a ∉ (processVM api now cuts cadences true vm).1 := by
  unfold processVM vmActs
  by_cases ht : vm.template
  · simp [ht]
  · cases hn : vm.node with
    | none => simp [ht, hn]
    | some node =>
      by_cases hnil : node = []
      · simp [ht, hn, hnil]
      · by_cases hlf : api.listFails node vm.vmid
        · simp [ht, hn, hnil, hlf, planOf]
        · simp only [ht, hn, hnil, hlf, if_false, if_neg, Bool.false_eq_true]
          rw [createAll_dry _ _ _ _ hs, pruneAll_dry, andThen_ok]
          refine ⟨by simp, ?_, ?_⟩
          · simp [List.filterMap_append, filterMap_planOf_comp]
          · intro a
            simp only [List.mem_append]
            rintro (h | h) <;> exact api_not_mem_plans _ a h

theorem processVM_live (api : Api) (now : DateTime) (cuts : Cutoffs) (cadences : List Str)
    (vm : VM) (hs : ∀ c ∈ cadences, (tag_snapshot_name c now).isSome = true)
    (hcf : ∀ v n, api.createFails v n = false) (hdf : ∀ v n, api.deleteFails v n = false) :
    (processVM api now cuts cadences false vm).2 = none ∧
      (processVM api now cuts cadences false vm).1.filterMap apiOf =
        vmActs api now cuts cadences vm := by
  unfold processVM vmActs
  by_cases ht : vm.template
  · simp [ht]
  · cases hn : vm.node with
    | none => simp [ht, hn]
    | some node =>
      by_cases hnil : node = []
      · simp [ht, hn, hnil]
      · by_cases hlf : api.listFails node vm.vmid
        · simp [ht, hn, hnil, hlf, apiOf]
        · simp only [ht, hn, hnil, hlf, if_false, if_neg, Bool.false_eq_true]
          rw [createAll_live _ (hcf vm.vmid) _ _ _ hs, pruneAll_live _ (hdf vm.vmid), andThen_ok]
          refine ⟨by simp, ?_⟩
          simp [List.filterMap_append, filterMap_apiOf_comp]

theorem runVMs_dry (api : Api) (now : DateTime) (cuts : Cutoffs) (cadences : List Str)
    (vms : List VM) (hs : ∀ c ∈ cadences, (tag_snapshot_name c now).isSome = true) :
    (runVMs api now cuts cadences true vms).2 = none ∧
      (runVMs api now cuts cadences true vms).1.filterMap planOf =
        passActs api now cuts cadences vms ∧
      ∀ a, Event.api a ∉ (runVMs api now cuts cadences true vms).1 := by
  induction vms with
  | nil => simp [runVMs, passActs]
  | cons vm rest ih =>
    obtain ⟨h1, h2, h3⟩ := processVM_dry api now cuts cadences vm hs
    obtain ⟨ih1, ih2, ih3⟩ := ih
    rcases hpv : processVM api now cuts cadences true vm with ⟨es, err⟩
    rw [hpv] at h1 h2 h3
    simp only at h1
    subst h1
    simp only [runVMs, hpv, andThen_ok]
    refine ⟨by simp [ih1], ?_, ?_⟩
    · simp [List.filterMap_append, h2, ih2, passActs]
    · intro a
      simp only [List.mem_append]
      rintro (h | h)
      · exact h3 a h
      · exact ih3 a h

theorem runVMs_live (api : Api) (now : DateTime) (cuts : Cutoffs) (cadences : List Str)
    (vms : List VM) (hs : ∀ c ∈ cadences, (tag_snapshot_name c now).isSome = true)
    (hcf : ∀ v n, api.createFails v n = false) (hdf : ∀ v n, api.deleteFails v n = false) :
    (runVMs api now cuts cadences false vms).2 = none ∧
      (runVMs api now cuts cadences false vms).1.filterMap apiOf =
        passActs api now cuts cadences vms := by
  induction vms with
  | nil => simp [runVMs, passActs]
  | cons vm rest ih =>
    obtain ⟨h1, h2⟩ := processVM_live api now cuts cadences vm hs hcf hdf
    obtain ⟨ih1, ih2⟩ := ih
    rcases hpv : processVM api now cuts cadences false vm with ⟨es, err⟩
    rw [hpv] at h1 h2
    simp only at h1
    subst h1
    simp only [runVMs, hpv, andThen_ok]
    exact ⟨by simp [ih1], by simp [List.filterMap_append, h2, ih2, passActs]⟩

/-- The condition under which `filter_snapshots` files a snapshot under
`cad`: automation marker, at least three dash-segments, second segment
equal to the tag — the timestamp segment is NOT examined. -/
def taggedAs (cad : Str) (s : Snap) : Bool :=
  (str "auto-").isPrefixOf s.name &&
    decide (3 ≤ (splitOnDash s.name).length) &&
    decide ((splitOnDash s.name).getD 1 [] = cad)

/-- Look up one cadence's bucket in the grouped dict. -/
def bucketOf (g : Grouped) (cad : Str) : List Snap :=
  if cad = str "hourly" then g.hourly
  else if cad = str "daily" then g.daily
  else if cad = str "weekly" then g.weekly
  else if cad = str "monthly" then g.monthly
  else []

theorem tagsNe :
    str "hourly" ≠ str "daily" ∧ str "hourly" ≠ str "weekly" ∧ str "hourly" ≠ str "monthly" ∧
    str "daily" ≠ str "hourly" ∧ str "daily" ≠ str "weekly" ∧ str "daily" ≠ str "monthly" ∧
    str "weekly" ≠ str "hourly" ∧ str "weekly" ≠ str "daily" ∧ str "weekly" ≠ str "monthly" ∧
    str "monthly" ≠ str "hourly" ∧ str "monthly" ≠ str "daily" ∧ str "monthly" ≠ str "weekly" := by
  decide

theorem filter_snapshots_hourly (snaps : List Snap) :
    (filter_snapshots snaps).hourly = snaps.filter (taggedAs (str "hourly")) := by
  induction snaps with
  | nil => rfl
  | cons s rest ih =>
    simp only [filter_snapshots, List.filter_cons, addSnap, taggedAs]
    by_cases h1 : (str "auto-").isPrefixOf s.name
    · by_cases h2 : (splitOnDash s.name).length < 3
      · have h2' : ¬ (3 ≤ (splitOnDash s.name).length) := by omega
        simp [h1, h2, h2', ih]
      · have h2' : 3 ≤ (splitOnDash s.name).length := by omega
        by_cases hc1 : (splitOnDash s.name)[1]?.getD [] = str "hourly"
        · simp [h1, h2, h2', hc1, ih, tagsNe]
        · by_cases hc2 : (splitOnDash s.name)[1]?.getD [] = str "daily"
          · simp [h1, h2, h2', hc1, hc2, ih, tagsNe]
          · by_cases hc3 : (splitOnDash s.name)[1]?.getD [] = str "weekly"
            · simp [h1, h2, h2', hc1, hc2, hc3, ih, tagsNe]
            · by_cases hc4 : (splitOnDash s.name)[1]?.getD [] = str "monthly"
              · simp [h1, h2, h2', hc1, hc2, hc3, hc4, ih, tagsNe]
              · simp [h1, h2, h2', hc1, hc2, hc3, hc4, ih, tagsNe]
    · simp [h1, ih]

theorem filter_snapshots_daily (snaps : List Snap) :
    (filter_snapshots snaps).daily = snaps.filter (taggedAs (str "daily")) := by
  induction snaps with
  | nil => rfl
  | cons s rest ih =>
    simp only [filter_snapshots, List.filter_cons, addSnap, taggedAs]
    by_cases h1 : (str "auto-").isPrefixOf s.name
    · by_cases h2 : (splitOnDash s.name).length < 3
      · have h2' : ¬ (3 ≤ (splitOnDash s.name).length) := by omega
        simp [h1, h2, h2', ih]
      · have h2' : 3 ≤ (splitOnDash s.name).length := by omega
        by_cases hc1 : (splitOnDash s.name)[1]?.getD [] = str "hourly"
        · simp [h1, h2, h2', hc1, ih, tagsNe]
        · by_cases hc2 : (splitOnDash s.name)[1]?.getD [] = str "daily"
          · simp [h1, h2, h2', hc1, hc2, ih, tagsNe]
          · by_cases hc3 : (splitOnDash s.name)[1]?.getD [] = str "weekly"
            · simp [h1, h2, h2', hc1, hc2, hc3, ih, tagsNe]
            · by_cases hc4 : (splitOnDash s.name)[1]?.getD [] = str "monthly"
              · simp [h1, h2, h2', hc1, hc2, hc3, hc4, ih, tagsNe]
              · simp [h1, h2, h2', hc1, hc2, hc3, hc4, ih, tagsNe]
    · simp [h1, ih]

theorem filter_snapshots_weekly (snaps : List Snap) :
    (filter_snapshots snaps).weekly = snaps.filter (taggedAs (str "weekly")) := by
  induction snaps with
  | nil => rfl
  | cons s rest ih =>
    simp only [filter_snapshots, List.filter_cons, addSnap, taggedAs]
    by_cases h1 : (str "auto-").isPrefixOf s.name
    · by_cases h2 : (splitOnDash s.name).length < 3
      · have h2' : ¬ (3 ≤ (splitOnDash s.name).length) := by omega
        simp [h1, h2, h2', ih]
      · have h2' : 3 ≤ (splitOnDash s.name).length := by omega
        by_cases hc1 : (splitOnDash s.name)[1]?.getD [] = str "hourly"
        · simp [h1, h2, h2', hc1, ih, tagsNe]
        · by_cases hc2 : (splitOnDash s.name)[1]?.getD [] = str "daily"
          · simp [h1, h2, h2', hc1, hc2, ih, tagsNe]
          · by_cases hc3 : (splitOnDash s.name)[1]?.getD [] = str "weekly"
            · simp [h1, h2, h2', hc1, hc2, hc3, ih, tagsNe]
            · by_cases hc4 : (splitOnDash s.name)[1]?.getD [] = str "monthly"
              · simp [h1, h2, h2', hc1, hc2, hc3, hc4, ih, tagsNe]
              · simp [h1, h2, h2', hc1, hc2, hc3, hc4, ih, tagsNe]
    · simp [h1, ih]

theorem filter_snapshots_monthly (snaps : List Snap) :
    (filter_snapshots snaps).monthly = snaps.filter (taggedAs (str "monthly")) := by
  induction snaps with
  | nil => rfl
  | cons s rest ih =>
    simp only [filter_snapshots, List.filter_cons, addSnap, taggedAs]
    by_cases h1 : (str "auto-").isPrefixOf s.name
    · by_cases h2 : (splitOnDash s.name).length < 3
      · have h2' : ¬ (3 ≤ (splitOnDash s.name).length) := by omega
        simp [h1, h2, h2', ih]
      · have h2' : 3 ≤ (splitOnDash s.name).length := by omega
        by_cases hc1 : (splitOnDash s.name)[1]?.getD [] = str "hourly"
        · simp [h1, h2, h2', hc1, ih, tagsNe]
        · by_cases hc2 : (splitOnDash s.name)[1]?.getD [] = str "daily"
          · simp [h1, h2, h2', hc1, hc2, ih, tagsNe]
          · by_cases hc3 : (splitOnDash s.name)[1]?.getD [] = str "weekly"
            · simp [h1, h2, h2', hc1, hc2, hc3, ih, tagsNe]
            · by_cases hc4 : (splitOnDash s.name)[1]?.getD [] = str "monthly"
              · simp [h1, h2, h2', hc1, hc2, hc3, hc4, ih, tagsNe]
              · simp [h1, h2, h2', hc1, hc2, hc3, hc4, ih, tagsNe]
    · simp [h1, ih]


theorem split_hourly_name (t : DateTime) :
    splitOnDash (str "auto-hourly-" ++ fmtYmd t ++ '-' :: fmtHm t)
      = [str "auto", str "hourly", fmtYmd t, fmtHm t] := by
  have hname : str "auto-hourly-" ++ fmtYmd t ++ '-' :: fmtHm t
      = str "auto" ++ '-' :: (str "hourly" ++ '-' :: (fmtYmd t ++ '-' :: fmtHm t)) := rfl
  rw [hname, splitOnDash_append_dash _ _ (by decide),
      splitOnDash_append_dash _ _ (by decide),
      splitOnDash_append_dash _ _ (dash_not_mem_fmtYmd t),
      splitOnDash_dashfree _ (dash_not_mem_fmtHm t)]

theorem split_day_name (cad : Str) (hdf : '-' ∉ cad) (t : DateTime) :
    splitOnDash (str "auto-" ++ (cad ++ '-' :: fmtYmd t)) = [str "auto", cad, fmtYmd t] := by
  have hname : str "auto-" ++ (cad ++ '-' :: fmtYmd t)
      = str "auto" ++ '-' :: (cad ++ '-' :: fmtYmd t) := rfl
  rw [hname, splitOnDash_append_dash _ _ (by decide),
      splitOnDash_append_dash _ _ hdf,
      splitOnDash_dashfree _ (dash_not_mem_fmtYmd t)]

/-- Inventory entries and oracles used to exercise the fleet driver on
concrete inputs. -/
def vmA : VM := ⟨str "101", some (str "pve1"), false⟩

def vmB : VM := ⟨str "102", some (str "pve1"), false⟩

/-- An old automated snapshot name, prunable under every cutoff used here. -/
def oldSnapName : Str := str "auto-hourly-20200101-0000"

/-- An API on which workload 101's delete calls fail and everything else
succeeds. -/
def apiFailDelete : Api :=
  { snapshotsOf := fun _ vmid => if vmid = str "101" then [⟨oldSnapName⟩] else []
    listFails := fun _ _ => false
    createFails := fun _ _ => false
    deleteFails := fun vmid _ => decide (vmid = str "101") }

/-- The same API with no injected failures. -/
def apiNoFail : Api :=
  { snapshotsOf := fun _ vmid => if vmid = str "101" then [⟨oldSnapName⟩] else []
    listFails := fun _ _ => false
    createFails := fun _ _ => false
    deleteFails := fun _ _ => false }

/-- A pass instant at minute 37 (only the hourly cadence is due). -/
def nowW : DateTime := ⟨2026, 1, 14, 4, 37⟩

/-- C1 counterexample: with two eligible workloads and a single failing
delete call on the first, the live pass stops with an uncaught error right
after the first workload's create — the old snapshot of workload 101 and
all of workload 102 are never processed, although the same pass with no
failure does reach workload 102's create. -/
theorem C1_counterexample :
    (run_pass apiFailDelete [vmA, vmB] nowW false).2 =
      some (Err.deleteErr (str "101") oldSnapName) ∧
    (run_pass apiFailDelete [vmA, vmB] nowW false).1 =
      [Event.api (EAction.create (str "101") (str "auto-hourly-20260114-0437"))] ∧
    Event.api (EAction.create (str "102") (str "auto-hourly-20260114-0437")) ∈
      (run_pass apiNoFail [vmA, vmB] nowW false).1 := by
  decide

/-- C1 (corrected): the only caught per-workload failure is the snapshot
listing (`[warn] skipping`); when no create/delete call fails a pass runs
to completion, but a failure of a single create or delete call is uncaught
and aborts the remainder of the pass (later snapshots, cadences and all
later workloads). -/
theorem C1_failure_semantics (api : Api) (now : DateTime) (dry : Bool) :
    (∀ vms, (∀ v n, api.createFails v n = false) → (∀ v n, api.deleteFails v n = false) →
      (run_pass api vms now dry).2 = none) ∧
    (∀ vm rest e,
      (processVM api now (retention_cutoffs now) (should_create now) dry vm).2 = some e →
      run_pass api (vm :: rest) now dry =
        ((processVM api now (retention_cutoffs now) (should_create now) dry vm).1, some e)) := by
  constructor
  · intro vms hcf hdf
    have hs : ∀ c ∈ should_create now, (tag_snapshot_name c now).isSome = true :=
      fun c h => tag_isSome_of_known now c (mem_should_create now c h)
    cases dry
    · exact (runVMs_live api now _ _ vms hs hcf hdf).1
    · exact (runVMs_dry api now _ _ vms hs).1
  · intro vm rest e he
    rcases hpv : processVM api now (retention_cutoffs now) (should_create now) dry vm
      with ⟨es, err⟩
    rw [hpv] at he
    simp only at he
    subst he
    simp [run_pass, runVMs, hpv, andThen_err]

theorem C1_failure_semantics_witness :
    (run_pass apiNoFail [vmA, vmB] nowW false).2 = none ∧
    run_pass apiFailDelete [vmA, vmB] nowW false =
      ((processVM apiFailDelete nowW (retention_cutoffs nowW) (should_create nowW) false vmA).1,
        some (Err.deleteErr (str "101") oldSnapName)) :=
  ⟨(C1_failure_semantics apiNoFail nowW false).1 [vmA, vmB] (fun _ _ => rfl) (fun _ _ => rfl),
   (C1_failure_semantics apiFailDelete nowW false).2 vmA [vmB]
     (Err.deleteErr (str "101") oldSnapName) (by decide)⟩

/-- C2: pruning a bucket requests deletion of exactly the snapshots whose
name decodes to an instant strictly before the cutoff — an instant equal
to the cutoff is retained (strict `<`), and a name the codec cannot parse
is never deleted; in dry-run the reported set is the same. -/
theorem C2_prune_correctness (vmid : Str) (snaps : List Snap) (cutoff : Int) :
    prune_snapshots (fun _ => false) vmid snaps cutoff false =
      ((spec_prune_selected snaps cutoff).map fun s => Event.api (EAction.delete vmid s.name),
        none) ∧
    prune_snapshots (fun _ => false) vmid snaps cutoff true =
      ((spec_prune_selected snaps cutoff).map fun s => Event.plan (EAction.delete vmid s.name),
        none) :=
  ⟨prune_live _ (fun _ => rfl) vmid snaps cutoff, prune_dry _ vmid snaps cutoff⟩

/-- C9: each retention cutoff is `now` minus the cadence's window (3 days,
14 days, 8 weeks = 56 days, 730 days), hence the cutoffs are strictly
ordered monthly < weekly < daily < hourly. -/
theorem C9_cutoff_monotonicity (now : DateTime) :
    (retention_cutoffs now).hourly = toMin now - 3 * 1440 ∧
    (retention_cutoffs now).daily = toMin now - 14 * 1440 ∧
    (retention_cutoffs now).weekly = toMin now - 56 * 1440 ∧
    (retention_cutoffs now).monthly = toMin now - 730 * 1440 ∧
    (retention_cutoffs now).monthly < (retention_cutoffs now).weekly ∧
    (retention_cutoffs now).weekly < (retention_cutoffs now).daily ∧
    (retention_cutoffs now).daily < (retention_cutoffs now).hourly := by
  refine ⟨rfl, rfl, by norm_num [retention_cutoffs], rfl, ?_, ?_, ?_⟩ <;>
    (simp only [retention_cutoffs]; omega)

/-- C10: `tag_snapshot_name` refuses (raises `ValueError` on) every
cadence outside the four known tags, but the branch is unreachable in a
pass: every element of `should_create now` is a known cadence, so every
creation request encodes successfully. -/
theorem C10_encode_safety (now : DateTime) :
    (∀ cad : Str, cad ∉ knownCadences → tag_snapshot_name cad now = none) ∧
    (∀ cad : Str, cad ∈ should_create now → (tag_snapshot_name cad now).isSome = true) := by
  constructor
  · intro cad h
    simp only [knownCadences, List.mem_cons, List.not_mem_nil, or_false, not_or] at h
    obtain ⟨h1, h2, h3, h4⟩ := h
    simp [tag_snapshot_name, h1, h2, h3, h4]
  · exact fun cad h => tag_isSome_of_known now cad (mem_should_create now cad h)

theorem C10_encode_safety_witness :
    tag_snapshot_name (str "yearly") nowW = none ∧
    (tag_snapshot_name (str "hourly") nowW).isSome = true :=
  ⟨(C10_encode_safety nowW).1 (str "yearly") (by decide),
   (C10_encode_safety nowW).2 (str "hourly") (by decide)⟩

/-- C3: for each of the four cadences and every valid instant already
truncated to the cadence's resolution (minute for hourly, midnight
otherwise), encoding produces a name whose timestamp decodes back to
exactly that instant and whose second dash-segment (the tag read back by
the classifier) is exactly that cadence. -/
theorem C3_roundtrip (cad : Str) (t : DateTime) (hc : cad ∈ knownCadences)
    (hv : t.valid) (htr : cad ≠ str "hourly" → t.hour = 0 ∧ t.minute = 0) :
    ∃ name, tag_snapshot_name cad t = some name ∧
      parse_snapshot_timestamp name = some t ∧
      (splitOnDash name).getD 1 [] = cad := by
  simp only [knownCadences, List.mem_cons, List.not_mem_nil, or_false] at hc
  rcases hc with hc | hc | hc | hc <;> subst hc
  · exact ⟨str "auto-hourly-" ++ fmtYmd t ++ '-' :: fmtHm t,
      by rw [tag_snapshot_name, if_pos rfl],
      parse_fmt_hourly t hv,
      by rw [split_hourly_name]; rfl⟩
  · obtain ⟨h0, m0⟩ := htr (by decide)
    refine ⟨str "auto-daily-" ++ fmtYmd t,
      by rw [tag_snapshot_name, if_neg (by decide), if_pos rfl], ?_, ?_⟩
    · have : str "auto-daily-" ++ fmtYmd t
          = str "auto-" ++ (str "daily" ++ '-' :: fmtYmd t) := rfl
      rw [this]
      exact parse_fmt_day _ t hv (by decide) (by decide) h0 m0
    · have : str "auto-daily-" ++ fmtYmd t
          = str "auto-" ++ (str "daily" ++ '-' :: fmtYmd t) := rfl
      rw [this, split_day_name _ (by decide) t]
      rfl
  · obtain ⟨h0, m0⟩ := htr (by decide)
    refine ⟨str "auto-weekly-" ++ fmtYmd t,
      by rw [tag_snapshot_name, if_neg (by decide), if_neg (by decide), if_pos rfl], ?_, ?_⟩
    · have : str "auto-weekly-" ++ fmtYmd t
          = str "auto-" ++ (str "weekly" ++ '-' :: fmtYmd t) := rfl
      rw [this]
      exact parse_fmt_day _ t hv (by decide) (by decide) h0 m0
    · have : str "auto-weekly-" ++ fmtYmd t
          = str "auto-" ++ (str "weekly" ++ '-' :: fmtYmd t) := rfl
      rw [this, split_day_name _ (by decide) t]
      rfl
  · obtain ⟨h0, m0⟩ := htr (by decide)
    refine ⟨str "auto-monthly-" ++ fmtYmd t,
      by rw [tag_snapshot_name, if_neg (by decide), if_neg (by decide), if_neg (by decide),
        if_pos rfl], ?_, ?_⟩
    · have : str "auto-monthly-" ++ fmtYmd t
          = str "auto-" ++ (str "monthly" ++ '-' :: fmtYmd t) := rfl
      rw [this]
      exact parse_fmt_day _ t hv (by decide) (by decide) h0 m0
    · have : str "auto-monthly-" ++ fmtYmd t
          = str "auto-" ++ (str "monthly" ++ '-' :: fmtYmd t) := rfl
      rw [this, split_day_name _ (by decide) t]
      rfl

theorem C3_roundtrip_witness :
    ∃ name, tag_snapshot_name (str "monthly") ⟨2026, 3, 15, 0, 0⟩ = some name ∧
      parse_snapshot_timestamp name = some ⟨2026, 3, 15, 0, 0⟩ ∧
      (splitOnDash name).getD 1 [] = str "monthly" :=
  C3_roundtrip (str "monthly") ⟨2026, 3, 15, 0, 0⟩ (by decide) (by decide)
    (fun _ => ⟨rfl, rfl⟩)

/-- C4 counterexample: a name whose second segment is NOT one of the four
recognized cadence tags is nevertheless decoded (with the day-resolution
format) instead of being rejected. -/
theorem C4_counterexample :
    parse_snapshot_timestamp (str "auto-foo-20260101") = some ⟨2026, 1, 1, 0, 0⟩ := by
  decide

/-- C4 (corrected): `parse_snapshot_timestamp` is total (the Python body is
wrapped in `try/except`) and returns `None` when the automation marker is
missing, when the name has fewer than three dash-segments, or when the
timestamp fails the format selected by the second segment — but an
UNKNOWN second segment is not itself rejected: any dash-free tag other
than `hourly` with a well-formed `%Y%m%d` timestamp decodes to that day's
midnight. -/
theorem C4_rejection (name : Str) :
    (¬ (str "auto-").isPrefixOf name → parse_snapshot_timestamp name = none) ∧
    ((splitOnDash name).length < 3 → parse_snapshot_timestamp name = none) ∧
    ((splitOnDash name).getD 1 [] = str "hourly" →
      strptimeYmdHm (joinDash ((splitOnDash name).drop 2)) = none →
      parse_snapshot_timestamp name = none) ∧
    ((splitOnDash name).getD 1 [] ≠ str "hourly" →
      strptimeYmd (joinDash ((splitOnDash name).drop 2)) = none →
      parse_snapshot_timestamp name = none) ∧
    (∀ cad : Str, '-' ∉ cad → cad ≠ str "hourly" → ∀ t : DateTime, t.valid →
      t.hour = 0 → t.minute = 0 →
      parse_snapshot_timestamp (str "auto-" ++ (cad ++ '-' :: fmtYmd t)) = some t) := by
  refine ⟨?_, ?_, ?_, ?_, fun cad hdf hne t hv h0 m0 => parse_fmt_day cad t hv hdf hne h0 m0⟩
  · intro h
    simp [parse_snapshot_timestamp, h]
  · intro h
    by_cases hp : (str "auto-").isPrefixOf name <;>
      simp [parse_snapshot_timestamp, hp, h]
  · intro hcad hst
    simp only [List.getD_eq_getElem?_getD] at hcad
    by_cases hp : (str "auto-").isPrefixOf name
    · by_cases hlen : (splitOnDash name).length < 3 <;>
        simp [parse_snapshot_timestamp, hp, hlen, hcad, hst]
    · simp [parse_snapshot_timestamp, hp]
  · intro hcad hst
    simp only [List.getD_eq_getElem?_getD] at hcad
    by_cases hp : (str "auto-").isPrefixOf name
    · by_cases hlen : (splitOnDash name).length < 3 <;>
        simp [parse_snapshot_timestamp, hp, hlen, hcad, hst]
    · simp [parse_snapshot_timestamp, hp]

theorem C4_rejection_witness :
    parse_snapshot_timestamp (str "hello") = none ∧
    parse_snapshot_timestamp (str "auto-daily") = none ∧
    parse_snapshot_timestamp (str "auto-hourly-xx") = none ∧
    parse_snapshot_timestamp (str "auto-daily-20230230") = none ∧
    parse_snapshot_timestamp (str "auto-" ++ (str "foo" ++ '-' :: fmtYmd ⟨2026, 1, 1, 0, 0⟩)) =
      some ⟨2026, 1, 1, 0, 0⟩ :=
  ⟨(C4_rejection (str "hello")).1 (by decide),
   (C4_rejection (str "auto-daily")).2.1 (by decide),
   (C4_rejection (str "auto-hourly-xx")).2.2.1 (by decide) (by decide),
   (C4_rejection (str "auto-daily-20230230")).2.2.2.1 (by decide) (by decide),
   (C4_rejection (str "x")).2.2.2.2 (str "foo") (by decide) (by decide)
     ⟨2026, 1, 1, 0, 0⟩ (by decide) rfl rfl⟩

/-- C5: hourly is always due; at minute 0, hour 0 of a Monday that is also
the 1st of the month all four cadences are due; at minute 0 of a day that
is neither a Monday nor the 1st exactly hourly and daily are due; at any
non-zero minute exactly hourly is due. -/
theorem C5_due_cadences (now : DateTime) :
    (now.minute = 0 → now.hour = 0 → weekday now = 0 → now.day = 1 →
      should_create now = [str "hourly", str "daily", str "weekly", str "monthly"]) ∧
    (now.minute = 0 → weekday now ≠ 0 → now.day ≠ 1 →
      should_create now = [str "hourly", str "daily"]) ∧
    (now.minute ≠ 0 → should_create now = [str "hourly"]) := by
  refine ⟨fun h1 h2 h3 h4 => ?_, fun h1 h2 h3 => ?_, fun h1 => ?_⟩ <;>
    simp [should_create, *]

theorem C5_due_cadences_witness :
    should_create ⟨2024, 1, 1, 0, 0⟩ = [str "hourly", str "daily", str "weekly", str "monthly"] ∧
    should_create ⟨2026, 1, 14, 4, 0⟩ = [str "hourly", str "daily"] ∧
    should_create ⟨2026, 1, 14, 4, 37⟩ = [str "hourly"] :=
  ⟨(C5_due_cadences ⟨2024, 1, 1, 0, 0⟩).1 rfl rfl (by decide) rfl,
   (C5_due_cadences ⟨2026, 1, 14, 4, 0⟩).2.1 rfl (by decide) (by decide),
   (C5_due_cadences ⟨2026, 1, 14, 4, 37⟩).2.2 (by decide)⟩

/-- C7 counterexample: 2026-01-01 00:00 is a top-of-month trigger (day 1,
hour 0, minute 0) but falls on a Thursday, so `should_create` omits the
weekly cadence instead of returning all four. -/
theorem C7_counterexample :
    (⟨2026, 1, 1, 0, 0⟩ : DateTime).day = 1 ∧
    (⟨2026, 1, 1, 0, 0⟩ : DateTime).hour = 0 ∧
    (⟨2026, 1, 1, 0, 0⟩ : DateTime).minute = 0 ∧
    should_create ⟨2026, 1, 1, 0, 0⟩ = [str "hourly", str "daily", str "monthly"] ∧
    str "weekly" ∉ should_create ⟨2026, 1, 1, 0, 0⟩ := by
  decide

/-- C7 (corrected): a top-of-month trigger (day 1, hour 0, minute 0) fires
hourly, daily and monthly, and fires weekly as well exactly when that day
is also a Monday. -/
theorem C7_top_of_month (now : DateTime) (h1 : now.day = 1) (h2 : now.hour = 0)
    (h3 : now.minute = 0) :
    should_create now =
      if weekday now = 0 then [str "hourly", str "daily", str "weekly", str "monthly"]
      else [str "hourly", str "daily", str "monthly"] := by
  by_cases hw : weekday now = 0 <;> simp [should_create, *]

theorem C7_top_of_month_witness :
    should_create ⟨2026, 1, 1, 0, 0⟩ =
      if weekday ⟨2026, 1, 1, 0, 0⟩ = 0 then
        [str "hourly", str "daily", str "weekly", str "monthly"]
      else [str "hourly", str "daily", str "monthly"] :=
  C7_top_of_month ⟨2026, 1, 1, 0, 0⟩ rfl rfl rfl

/-- C8 counterexample: `filter_snapshots` buckets a name with the marker,
a known tag and a malformed timestamp (`auto-hourly-xx`) into the hourly
bucket even though the decoder rejects that name. -/
theorem C8_counterexample :
    (filter_snapshots [⟨str "auto-hourly-xx"⟩]).hourly = [⟨str "auto-hourly-xx"⟩] ∧
    parse_snapshot_timestamp (str "auto-hourly-xx") = none := by
  decide

/-- C8 (corrected): all four buckets are always present (the dict is
initialised with the four keys), and a snapshot lands in cadence `cad`'s
bucket exactly when its name carries the automation marker, splits into at
least three dash-segments, and has `cad` as its second segment — the
timestamp segment is NOT validated by the classifier. -/
theorem C8_classifier (cad : Str) (hc : cad ∈ knownCadences) (snaps : List Snap) :
    bucketOf (filter_snapshots snaps) cad = snaps.filter (taggedAs cad) := by
  simp only [knownCadences, List.mem_cons, List.not_mem_nil, or_false] at hc
  rcases hc with hc | hc | hc | hc <;> subst hc
  · rw [bucketOf, if_pos rfl, filter_snapshots_hourly]
  · rw [bucketOf, if_neg (by decide), if_pos rfl, filter_snapshots_daily]
  · rw [bucketOf, if_neg (by decide), if_neg (by decide), if_pos rfl, filter_snapshots_weekly]
  · rw [bucketOf, if_neg (by decide), if_neg (by decide), if_neg (by decide), if_pos rfl,
      filter_snapshots_monthly]

theorem C8_classifier_witness :
    bucketOf (filter_snapshots [⟨str "auto-daily-20260301"⟩, ⟨str "manual-1"⟩,
        ⟨str "auto-daily-bad"⟩, ⟨str "auto-yearly-20260301"⟩]) (str "daily") =
      List.filter (taggedAs (str "daily")) [⟨str "auto-daily-20260301"⟩, ⟨str "manual-1"⟩,
        ⟨str "auto-daily-bad"⟩, ⟨str "auto-yearly-20260301"⟩] :=
  C8_classifier (str "daily") (by decide) _

/-- C6: a dry-run pass issues no external mutation call and cannot abort,
and the actions it reports are exactly the mutations a live pass performs
from the same instant, inventory and snapshot listings (when no external
call fails). -/
theorem C6_dry_run (api : Api) (vms : List VM) (now : DateTime)
    (hcf : ∀ v n, api.createFails v n = false) (hdf : ∀ v n, api.deleteFails v n = false) :
    (∀ a, Event.api a ∉ (run_pass api vms now true).1) ∧
    (run_pass api vms now true).2 = none ∧
    (run_pass api vms now true).1.filterMap planOf =
      (run_pass api vms now false).1.filterMap apiOf ∧
    (run_pass api vms now false).2 = none := by
  have hs : ∀ c ∈ should_create now, (tag_snapshot_name c now).isSome = true :=
    fun c h => tag_isSome_of_known now c (mem_should_create now c h)
  obtain ⟨d1, d2, d3⟩ := runVMs_dry api now (retention_cutoffs now) (should_create now) vms hs
  obtain ⟨l1, l2⟩ := runVMs_live api now (retention_cutoffs now) (should_create now) vms hs
    hcf hdf
  exact ⟨d3, d1, by rw [run_pass, d2, run_pass, l2], l1⟩

theorem C6_dry_run_witness :
    (run_pass apiNoFail [vmA, vmB] nowW true).2 = none ∧
    (run_pass apiNoFail [vmA, vmB] nowW true).1.filterMap planOf =
      (run_pass apiNoFail [vmA, vmB] nowW false).1.filterMap apiOf ∧
    (run_pass apiNoFail [vmA, vmB] nowW false).2 = none :=
  ⟨(C6_dry_run apiNoFail [vmA, vmB] nowW (fun _ _ => rfl) (fun _ _ => rfl)).2.1,
   (C6_dry_run apiNoFail [vmA, vmB] nowW (fun _ _ => rfl) (fun _ _ => rfl)).2.2.1,
   (C6_dry_run apiNoFail [vmA, vmB] nowW (fun _ _ => rfl) (fun _ _ => rfl)).2.2.2⟩
